import Mathlib

/-!
Verification of the quiz/exam practice application (question-bank import,
session state machine, mastery statistics, score reporting).

The definitions below are a shallow embedding of the JavaScript source:
the Vue application logic (methods and computed properties) and the utility
module (CSV tokenizer, answer checking, accuracy formatting).  Machine
numbers are modelled as Nat, JavaScript strings as Lean String, fallible
code paths (where the JS would throw a TypeError) as Option.
-/

namespace AiClass

/-! ## JavaScript string primitives -/

/-- Whitespace recognised by the trim model (space, tab, newline, carriage
return); this covers every character occurring in the inputs considered. -/
def isJsSpace (c : Char) : Bool :=
  c == ' ' || c == '\t' || c == '\n' || c == '\r'

/-- Trim on character lists: drop leading and trailing whitespace. -/
def jsTrimList (l : List Char) : List Char :=
  ((l.dropWhile isJsSpace).reverse.dropWhile isJsSpace).reverse

/-- Model of the JS String.prototype.trim call. -/
def jsTrim (s : String) : String :=
  (jsTrimList s.toList).asString

/-- Model of the JS text.split with separator newline: splits a character
list at every newline; a trailing newline yields a final empty piece,
and the empty input yields one empty piece, as in JS. -/
def jsSplitLines : List Char → List (List Char)
  | [] => [[]]
  | c :: rest =>
    if c = '\n' then [] :: jsSplitLines rest
    else
      match jsSplitLines rest with
      | [] => [[c]]
      | l :: ls => (c :: l) :: ls

/-- Model of the JS replace of every maximal run of newlines by a single
space (the regex replace with pattern newline-plus and a space). -/
def collapseAux : List Char → Bool → List Char
  | [], _ => []
  | c :: rest, prevNl =>
    if c = '\n' then
      (if prevNl then collapseAux rest true else ' ' :: collapseAux rest true)
    else c :: collapseAux rest false

/-- Collapse embedded newline runs in a string to single spaces. -/
def collapseNewlines (s : String) : String :=
  (collapseAux s.toList false).asString

/-! ## Data model (question records and statistics) -/

/-- Per-question mastery statistics, as stored on each question record. -/
structure Statistics where
  consecutiveCorrect : Nat
  totalAttempts : Nat
  correctAttempts : Nat
deriving DecidableEq, Repr

/-- A question record produced by the parser: id, type (the strings for
single-choice, multi-choice, boolean), prompt, ordered label-to-text
options mapping, correct-answer spec, statistics. -/
structure Question where
  id : String
  qtype : String
  question : String
  options : List (Char × String)
  answer : String
  statistics : Statistics
deriving DecidableEq, Repr

/-! ## Tabular parser (utils: parseCSVRows and parseCSVText) -/

/-- One step of the character loop of parseCSVRows over a single line.
State: the field accumulated so far, the fields of the current row, and
the in-quotes flag.  A doubled quote while inside quotes appends one
literal quote and skips the second; any other quote toggles the flag; a
comma outside quotes ends the field (trimmed); everything else is
appended to the field. -/
def scanLine : List Char → String → List String → Bool →
    String × List String × Bool
  | [], field, row, inQ => (field, row, inQ)
  | c :: rest, field, row, inQ =>
    if c = '"' then
      if inQ then
        match rest with
        | c2 :: rest2 =>
          if c2 = '"' then scanLine rest2 (field.push '"') row inQ
          else scanLine (c2 :: rest2) field row false
        | [] => scanLine [] field row false
      else scanLine rest field row true
    else if c = ',' ∧ inQ = false then
      scanLine rest ("") (row ++ [jsTrim field]) inQ
    else scanLine rest (field.push c) row inQ

/-- Accumulator of parseCSVRows across lines. -/
structure RowsAcc where
  rows : List (List String)
  currentRow : List String
  currentField : String
  inQuotes : Bool
deriving DecidableEq, Repr

/-- A completed row is kept only if some field is non-empty. -/
def pushRowIfContent (rows : List (List String)) (row : List String) :
    List (List String) :=
  if row.any (fun f => f.length > 0) then rows ++ [row] else rows

/-- Process one line of parseCSVRows: run the character loop; if the line
ends inside quotes, keep accumulating with a newline appended to the
field (the row continues on the next line); otherwise close the final
field (trimmed) and emit the row when it has content. -/
def processLine (acc : RowsAcc) (line : List Char) : RowsAcc :=
  let r := scanLine line acc.currentField acc.currentRow acc.inQuotes
  if r.2.2 then
    { rows := acc.rows, currentRow := r.2.1,
      currentField := r.1.push '\n', inQuotes := true }
  else
    { rows := pushRowIfContent acc.rows (r.2.1 ++ [jsTrim r.1]),
      currentRow := [], currentField := "", inQuotes := false }

/-- parseCSVRows: split on newlines, run the per-line loop, then flush a
final unfinished row exactly as the JS does. -/
def parseCSVRows (text : String) : List (List String) :=
  let acc := (jsSplitLines text.toList).foldl processLine ⟨[], [], "", false⟩
  if acc.currentRow.length > 0 ∨ acc.currentField.length > 0 then
    pushRowIfContent acc.rows (acc.currentRow ++ [jsTrim acc.currentField])
  else acc.rows

/-- Option-map construction of parseCSVText: the boolean type (the string
for judge-questions) gets the fixed pair of labels; otherwise a label is
included only when the trimmed cell is non-empty, with newline runs in
the text collapsed to single spaces. -/
def buildOptions (qtype optA optB optC optD optE : String) :
    List (Char × String) :=
  if jsTrim qtype = "判断" then [('A', "对"), ('B', "错")]
  else
    (if jsTrim optA ≠ "" then [('A', collapseNewlines (jsTrim optA))] else []) ++
    (if jsTrim optB ≠ "" then [('B', collapseNewlines (jsTrim optB))] else []) ++
    (if jsTrim optC ≠ "" then [('C', collapseNewlines (jsTrim optC))] else []) ++
    (if jsTrim optD ≠ "" then [('D', collapseNewlines (jsTrim optD))] else []) ++
    (if jsTrim optE ≠ "" then [('E', collapseNewlines (jsTrim optE))] else [])

/-- Build one question record from a resolved field row (the row is known
to have at least 9 fields when this is used). -/
def mkQuestionRecord (fields : List String) : Question :=
  { id := jsTrim (fields.getD 0 "")
    qtype := jsTrim (fields.getD 1 "")
    question := collapseNewlines (jsTrim (fields.getD 2 ""))
    options := buildOptions (fields.getD 1 "") (fields.getD 3 "")
      (fields.getD 4 "") (fields.getD 5 "") (fields.getD 6 "")
      (fields.getD 7 "")
    answer := jsTrim (fields.getD 8 "")
    statistics := ⟨0, 0, 0⟩ }

/-- parseCSVText: tokenize into rows, skip the header row, skip any data
row with fewer than 9 fields, and build a record from each remaining
row. -/
def parseCSVText (text : String) : List Question :=
  ((parseCSVRows text).drop 1).foldl
    (fun qs fields =>
      if fields.length < 9 then qs else qs ++ [mkQuestionRecord fields]) []

/-! ## Answer checking and accuracy (utils: checkAnswer, calculateAccuracy) -/

/-- The user answer bound to the form: a string for single-choice and
boolean questions, an array of selected option labels for multi-choice
(the JS checks Array.isArray to tell them apart). -/
inductive UserAnswer where
  | str : String → UserAnswer
  | arr : List String → UserAnswer
deriving DecidableEq, Repr

/-- The comparison used by the JS default array sort: lexicographic on
the code units of the two strings (equal to code-point order for all
characters appearing here). -/
def jsStrLtB : List Char → List Char → Bool
  | [], [] => false
  | [], _ :: _ => true
  | _ :: _, [] => false
  | a :: as, b :: bs =>
    if a < b then true else if b < a then false else jsStrLtB as bs

/-- The non-strict order induced by the JS string comparison. -/
def jsStringLe (a b : String) : Prop :=
  jsStrLtB b.toList a.toList = false

instance : DecidableRel jsStringLe := fun a b =>
  instDecidableEqBool (jsStrLtB b.toList a.toList) false

/-- The JS array sort followed by join with the empty separator: sort the
selected labels lexicographically and concatenate. -/
def sortJoin (l : List String) : String :=
  String.join (List.insertionSort jsStringLe l)

/-- Sorting the characters of the correct-answer spec (split into single
characters, sorted, joined). -/
def sortChars (s : String) : String :=
  (List.insertionSort (· ≤ ·) s.toList).asString

/-- JS String coercion of the user answer (an array stringifies as its
elements joined by commas). -/
def jsToString : UserAnswer → String
  | .str s => s
  | .arr l => String.intercalate (",") l

/-- checkAnswer: multi-choice compares the sorted submitted labels with
the sorted correct-answer labels, where a non-array submission is
treated as the empty label string; other types compare the stringified
submission with the correct-answer spec. -/
def checkAnswer (userAnswer : UserAnswer) (correctAnswer : String)
    (questionType : String) : Bool :=
  if questionType = "多选" then
    let userAns := match userAnswer with
      | .arr l => sortJoin l
      | .str _ => ""
    let correctAns := sortChars correctAnswer
    decide (userAns = correctAns)
  else decide (jsToString userAnswer = correctAnswer)

/-- calculateAccuracy: the 0-total case yields the bare "0%"; otherwise
the percentage correct/total*100 is rendered with one decimal digit.
The JS computes this on binary doubles and formats with toFixed(1); the
embedding performs the toFixed rounding (nearest, ties to the larger
value) on the exact rational: n below is the percentage in tenths,
rounded. -/
def calculateAccuracy (correct total : Nat) : String :=
  if total = 0 then "0%"
  else
    let n := (2000 * correct + total) / (2 * total)
    toString (n / 10) ++ "." ++ toString (n % 10) ++ "%"

/-! ## Session state (Vue component data, computed values) -/

/-- One immutable answer record appended at submit time. -/
structure AnswerRecord where
  questionId : String
  question : String
  userAnswer : String
  correctAnswer : String
  isCorrect : Bool
deriving DecidableEq, Repr

/-- The immediate-feedback payload shown above the next question. -/
structure Feedback where
  questionIndex : Nat
  userAnswer : String
  correctAnswer : String
  isCorrect : Bool
deriving DecidableEq, Repr

/-- The aggregated score of a session. -/
structure Score where
  total : Nat
  correct : Nat
  incorrect : Nat
  accuracy : String
deriving DecidableEq, Repr

/-- One history entry (exam record) pushed to the front of the history. -/
structure ExamRecord where
  examId : Nat
  startTime : String
  endTime : String
  answers : List AnswerRecord
  score : Score
deriving DecidableEq, Repr

/-- The mutable component state driving the exam session. -/
structure ExamState where
  currentPage : String
  questions : List Question
  currentExamQuestions : List Question
  currentQuestionIndex : Nat
  userAnswer : UserAnswer
  currentExamAnswers : List AnswerRecord
  lastAnswerFeedback : Option Feedback
  currentExamCorrect : Nat
  currentExamIncorrect : Nat
  examHistory : List ExamRecord
deriving DecidableEq, Repr

/-- External collaborators of one finalize transition: the boolean
confirm dialog and the clock values used for the history entry. -/
structure Externals where
  confirmFinish : Bool
  examId : Nat
  startTime : String
  endTime : String
deriving DecidableEq, Repr

/-- Computed currentQuestion: none when the snapshot is empty, otherwise
the element at the pointer (an out-of-range pointer gives none, as the
JS indexing gives undefined). -/
def currentQuestion (s : ExamState) : Option Question :=
  if s.currentExamQuestions.length = 0 then none
  else s.currentExamQuestions[s.currentQuestionIndex]?

/-- Computed hasAnswer: multi-choice requires a non-empty selected array;
other cases require the answer to differ from the empty string (an
array compared against the empty string is always different). -/
def hasAnswer (s : ExamState) : Bool :=
  if (currentQuestion s).map Question.qtype = some ("多选") then
    match s.userAnswer with
    | .arr l => decide (l.length > 0)
    | .str _ => false
  else
    match s.userAnswer with
    | .str t => decide (t ≠ "")
    | .arr _ => true

/-- Computed currentExamScore over the running session counters. -/
def currentExamScore (s : ExamState) : Score :=
  { total := s.currentExamAnswers.length
    correct := s.currentExamCorrect
    incorrect := s.currentExamIncorrect
    accuracy := calculateAccuracy s.currentExamCorrect
      s.currentExamAnswers.length }

/-- resetAnswer: empty pending input appropriate to the current question
type (empty array for multi-choice, empty string otherwise). -/
def resetAnswer (s : ExamState) : ExamState :=
  if (currentQuestion s).map Question.qtype = some ("多选") then
    { s with userAnswer := .arr [] }
  else { s with userAnswer := .str ("") }

/-! ## Mastery tracker (updateQuestionStats) -/

/-- The per-answer statistics mutation: one more attempt; a correct
answer also increments the correct count and the streak, an incorrect
answer resets the streak to zero. -/
def updateStats (isCorrect : Bool) (st : Statistics) : Statistics :=
  { consecutiveCorrect := if isCorrect then st.consecutiveCorrect + 1 else 0
    totalAttempts := st.totalAttempts + 1
    correctAttempts :=
      if isCorrect then st.correctAttempts + 1 else st.correctAttempts }

/-- Apply one answer record to the bank: the first question whose id
matches the answer gets its statistics updated; with no match the bank
is returned unchanged (the JS find returns undefined and the callback
returns early). -/
def applyAnswerToBank (bank : List Question) (a : AnswerRecord) :
    List Question :=
  match bank with
  | [] => []
  | q :: rest =>
    if q.id = a.questionId then
      { q with statistics := updateStats a.isCorrect q.statistics } :: rest
    else q :: applyAnswerToBank rest a

/-- updateQuestionStats: fold every answer of the finished session over
the bank, in order. -/
def updateQuestionStats (bank : List Question)
    (answers : List AnswerRecord) : List Question :=
  answers.foldl applyAnswerToBank bank

/-- The statistics of the first bank question with the given id. -/
def findStats (bank : List Question) (id : String) : Option Statistics :=
  (bank.find? (fun q => decide (q.id = id))).map Question.statistics

/-! ## Session transitions (submit, jump, finish) -/

/-- The stringified submission recorded in the answer record: sorted
joined labels for multi-choice, the JS String coercion otherwise.  (For
multi-choice the string branch is unreachable: hasAnswer has already
required an array.) -/
def submittedAnswerString (q : Question) (ua : UserAnswer) : String :=
  if q.qtype = "多选" then
    match ua with
    | .arr l => sortJoin l
    | .str t => t
  else jsToString ua

/-- finishExam: with zero recorded answers only an alert is shown and
nothing changes; with the confirm dialog declined nothing changes;
otherwise the statistics update is applied once, one exam record is
pushed to the front of the history, and the page moves to the report. -/
def finishExam (env : Externals) (s : ExamState) : ExamState :=
  if s.currentExamAnswers.length = 0 then s
  else if env.confirmFinish = false then s
  else
    { s with
      questions := updateQuestionStats s.questions s.currentExamAnswers
      examHistory :=
        { examId := env.examId, startTime := env.startTime
          endTime := env.endTime, answers := s.currentExamAnswers
          score := currentExamScore s } :: s.examHistory
      currentPage := "report" }

/-- submitAnswer (skip-policy variant): with an answer present, an answer
record is appended, a counter is bumped and the feedback payload is
stored; with no answer the stale feedback is cleared.  Then the pointer
advances with a fresh empty input, except at the last index, where a
just-recorded answer defers finalize behind the grace timer (the
deferred call is outside this synchronous transition) and a skip
finalizes immediately.  The none result models the JS TypeError raised
when an answer is present but no current question exists. -/
def submitAnswer (env : Externals) (s : ExamState) : Option ExamState :=
  let step1 : Option ExamState :=
    if hasAnswer s then
      match currentQuestion s with
      | none => none
      | some q =>
        let userAns := submittedAnswerString q s.userAnswer
        let isCorrect := checkAnswer s.userAnswer q.answer q.qtype
        some { s with
          currentExamAnswers := s.currentExamAnswers ++
            [{ questionId := q.id, question := q.question
               userAnswer := userAns, correctAnswer := q.answer
               isCorrect := isCorrect }]
          currentExamCorrect :=
            if isCorrect then s.currentExamCorrect + 1
            else s.currentExamCorrect
          currentExamIncorrect :=
            if isCorrect then s.currentExamIncorrect
            else s.currentExamIncorrect + 1
          lastAnswerFeedback := some
            { questionIndex := s.currentQuestionIndex + 1
              userAnswer := userAns, correctAnswer := q.answer
              isCorrect := isCorrect } }
    else some { s with lastAnswerFeedback := none }
  match step1 with
  | none => none
  | some s1 =>
    if s1.currentQuestionIndex < s1.currentExamQuestions.length - 1 then
      some (resetAnswer
        { s1 with currentQuestionIndex := s1.currentQuestionIndex + 1 })
    else if hasAnswer s1 then some s1
    else some (finishExam env s1)

/-- jumpToQuestion: the pointer is set to the given index directly, the
pending input is reset for the question now under the pointer, the
feedback is cleared and the page returns to the exam. -/
def jumpToQuestion (index : Nat) (s : ExamState) : ExamState :=
  let s1 := resetAnswer { s with currentQuestionIndex := index }
  { s1 with lastAnswerFeedback := none, currentPage := "exam" }

/-! ## Concrete sample data used by witnesses and counterexamples -/

/-- A sample single-choice question. -/
def qSingle : Question :=
  { id := "1", qtype := "单选", question := "q1"
    options := [('A', "o1"), ('B', "o2")], answer := "A"
    statistics := ⟨0, 0, 0⟩ }

/-- A sample multi-choice question. -/
def qMulti : Question :=
  { id := "2", qtype := "多选", question := "q2"
    options := [('A', "o1"), ('B', "o2"), ('C', "o3")], answer := "AC"
    statistics := ⟨1, 4, 2⟩ }

/-- A sample in-progress session on the single-choice question, with a
stale feedback payload from a previous question and an empty pending
input. -/
def sampleState : ExamState :=
  { currentPage := "exam", questions := [qSingle, qMulti]
    currentExamQuestions := [qSingle], currentQuestionIndex := 0
    userAnswer := .str (""), currentExamAnswers := []
    lastAnswerFeedback := some ⟨1, "B", "A", false⟩
    currentExamCorrect := 0, currentExamIncorrect := 0, examHistory := [] }

/-- A sample session holding one recorded (incorrect) answer. -/
def sampleStateAnswered : ExamState :=
  { sampleState with
    currentExamAnswers :=
      [{ questionId := "1", question := "q1", userAnswer := "B"
         correctAnswer := "A", isCorrect := false }]
    currentExamIncorrect := 1 }

/-- Sample externals granting confirmation. -/
def sampleEnv : Externals :=
  { confirmFinish := true, examId := 7, startTime := "t0", endTime := "t1" }

/-- A sample answer record whose question id matches no bank question. -/
def unknownAnswer : AnswerRecord :=
  { questionId := "9", question := "qq", userAnswer := "A"
    correctAnswer := "A", isCorrect := true }

/-- A sample correct answer record for the first sample question. -/
def correctAnswer1 : AnswerRecord :=
  { questionId := "1", question := "q1", userAnswer := "A"
    correctAnswer := "A", isCorrect := true }

/-- A sample well-formed delimited input: one header row and one data row
whose option cells are all empty. -/
def csvNoOptions : String := "h,h,h,h,h,h,h,h,h\n1,单选,q,,,,,,A"

/-- A sample delimited input whose prompt field is quoted and contains an
embedded comma and an embedded newline. -/
def csvQuotedPrompt : String := "h,h,h,h,h,h,h,h,h\n1,单选,\"a,b\nc\",o,,,,,A"

/-! ## Frame lemmas for the session transitions -/

theorem resetAnswer_frame (s : ExamState) :
    (resetAnswer s).currentPage = s.currentPage ∧
    (resetAnswer s).questions = s.questions ∧
    (resetAnswer s).currentExamQuestions = s.currentExamQuestions ∧
    (resetAnswer s).currentQuestionIndex = s.currentQuestionIndex ∧
    (resetAnswer s).currentExamAnswers = s.currentExamAnswers ∧
    (resetAnswer s).lastAnswerFeedback = s.lastAnswerFeedback ∧
    (resetAnswer s).currentExamCorrect = s.currentExamCorrect ∧
    (resetAnswer s).currentExamIncorrect = s.currentExamIncorrect ∧
    (resetAnswer s).examHistory = s.examHistory := by
  unfold resetAnswer
  split <;> exact ⟨rfl, rfl, rfl, rfl, rfl, rfl, rfl, rfl, rfl⟩

theorem resetAnswer_userAnswer (s : ExamState) :
    (resetAnswer s).userAnswer = .arr [] ∨
    (resetAnswer s).userAnswer = .str ("") := by
  unfold resetAnswer
  split
  · exact Or.inl rfl
  · exact Or.inr rfl

theorem finishExam_frame (env : Externals) (s : ExamState) :
    (finishExam env s).currentExamQuestions = s.currentExamQuestions ∧
    (finishExam env s).currentQuestionIndex = s.currentQuestionIndex ∧
    (finishExam env s).userAnswer = s.userAnswer ∧
    (finishExam env s).currentExamAnswers = s.currentExamAnswers ∧
    (finishExam env s).lastAnswerFeedback = s.lastAnswerFeedback ∧
    (finishExam env s).currentExamCorrect = s.currentExamCorrect ∧
    (finishExam env s).currentExamIncorrect = s.currentExamIncorrect := by
  unfold finishExam
  split
  · exact ⟨rfl, rfl, rfl, rfl, rfl, rfl, rfl⟩
  · split <;> exact ⟨rfl, rfl, rfl, rfl, rfl, rfl, rfl⟩

/-! ## C2: out-of-range jump -/

/-- C2 counterexample: in a one-question session, a jump to index 5 (far
outside the session range) is not blocked: the position pointer is
mutated to 5.  This refutes the claim that an out-of-range jump leaves
the state unchanged. -/
theorem c2_out_of_range_jump_counterexample :
    sampleState.currentExamQuestions.length ≤ 5 ∧
    sampleState.currentQuestionIndex = 0 ∧
    (jumpToQuestion 5 sampleState).currentQuestionIndex = 5 := by
  decide

/-- C2 (amended): jumpToQuestion performs no range validation.  For every
index, in range or not, it sets the pointer to that index, clears the
pending input and the feedback, and leaves the answers, counters, bank
and history unchanged. -/
theorem c2_jump_sets_pointer_unconditionally (index : Nat) (s : ExamState) :
    (jumpToQuestion index s).currentQuestionIndex = index ∧
    (jumpToQuestion index s).currentExamAnswers = s.currentExamAnswers ∧
    (jumpToQuestion index s).currentExamCorrect = s.currentExamCorrect ∧
    (jumpToQuestion index s).currentExamIncorrect = s.currentExamIncorrect ∧
    (jumpToQuestion index s).questions = s.questions ∧
    (jumpToQuestion index s).examHistory = s.examHistory ∧
    (jumpToQuestion index s).lastAnswerFeedback = none ∧
    ((jumpToQuestion index s).userAnswer = .arr [] ∨
     (jumpToQuestion index s).userAnswer = .str ("")) := by
  unfold jumpToQuestion
  have h := resetAnswer_frame { s with currentQuestionIndex := index }
  have hu := resetAnswer_userAnswer { s with currentQuestionIndex := index }
  refine ⟨?_, ?_, ?_, ?_, ?_, ?_, rfl, ?_⟩
  · exact h.2.2.2.1
  · exact h.2.2.2.2.1
  · exact h.2.2.2.2.2.2.1
  · exact h.2.2.2.2.2.2.2.1
  · exact h.2.1
  · exact h.2.2.2.2.2.2.2.2
  · exact hu

/-! ## C9: non-array submission on a multi-choice question -/

/-- C9: for a multi-choice question, a submission that is not an array of
labels normalizes to the empty label string, so it is judged correct
exactly when the correct-answer spec is the empty string (hence always
incorrect against a valid non-empty multi-choice spec). -/
theorem c9_multi_string_submission (t spec : String) :
    (checkAnswer (.str t) spec ("多选") = true ↔ spec = "") := by
  show decide (("" : String) = sortChars spec) = true ↔ spec = ""
  rw [decide_eq_true_iff]
  unfold sortChars
  constructor
  · intro h
    have h2 : List.insertionSort (· ≤ ·) spec.toList = [] := by
      simpa using List.asString_eq.mp h.symm
    have h3 : spec.toList.Perm [] := by
      rw [← h2]
      exact (List.perm_insertionSort _ _).symm
    have h4 : spec.toList = [] := h3.eq_nil
    rw [← String.toList_inj]
    simpa using h4
  · intro h
    subst h
    rfl

/-! ## C8: score report and accuracy formatting -/

/-- C8: the score report exposes total equal to the length of the answer
list and the two running counters unchanged; accuracy is the percentage
correct/total*100 rendered to one decimal digit (n below is within half
a tenth of the exact percentage), with the 0-total case defined as the
bare "0%" and the (correct 1, total 3) case rendering as "33.3%". -/
theorem c8_score_report (s : ExamState) (c t : Nat) :
    (currentExamScore s).total = s.currentExamAnswers.length ∧
    (currentExamScore s).correct = s.currentExamCorrect ∧
    (currentExamScore s).incorrect = s.currentExamIncorrect ∧
    (currentExamScore s).accuracy =
      calculateAccuracy s.currentExamCorrect s.currentExamAnswers.length ∧
    calculateAccuracy c 0 = "0%" ∧
    calculateAccuracy 1 3 = "33.3%" ∧
    (0 < t →
      ∃ n : Nat,
        calculateAccuracy c t =
          toString (n / 10) ++ "." ++ toString (n % 10) ++ "%" ∧
        2 * n * t ≤ 2000 * c + t ∧
        2000 * c ≤ 2 * n * t + t) := by
  refine ⟨rfl, rfl, rfl, rfl, rfl, by decide, ?_⟩
  intro ht
  refine ⟨(2000 * c + t) / (2 * t), ?_, ?_, ?_⟩
  · unfold calculateAccuracy
    rw [if_neg (Nat.pos_iff_ne_zero.mp ht)]
  · have h1 := Nat.div_add_mod (2000 * c + t) (2 * t)
    have h2 : (2000 * c + t) % (2 * t) < 2 * t := Nat.mod_lt _ (by omega)
    have h3 : 2 * ((2000 * c + t) / (2 * t)) * t =
        2 * t * ((2000 * c + t) / (2 * t)) := by ring
    omega
  · have h1 := Nat.div_add_mod (2000 * c + t) (2 * t)
    have h2 : (2000 * c + t) % (2 * t) < 2 * t := Nat.mod_lt _ (by omega)
    have h3 : 2 * ((2000 * c + t) / (2 * t)) * t =
        2 * t * ((2000 * c + t) / (2 * t)) := by ring
    omega

/-- C8 witness: the accuracy characterization applied at correct 1,
total 3. -/
theorem c8_score_report_witness :
    0 < 3 ∧
    ∃ n : Nat,
      calculateAccuracy 1 3 =
        toString (n / 10) ++ "." ++ toString (n % 10) ++ "%" ∧
      2 * n * 3 ≤ 2000 * 1 + 3 ∧
      2000 * 1 ≤ 2 * n * 3 + 3 :=
  ⟨by decide, (c8_score_report sampleState 1 3).2.2.2.2.2.2 (by decide)⟩

/-! ## C10: unknown answer ids are skipped; untouched questions keep
their statistics -/

theorem applyAnswerToBank_nomatch (bank : List Question) (a : AnswerRecord)
    (h : ∀ q ∈ bank, q.id ≠ a.questionId) :
    applyAnswerToBank bank a = bank := by
  induction bank with
  | nil => rfl
  | cons q rest ih =>
    unfold applyAnswerToBank
    rw [if_neg (h q (List.mem_cons_self q rest)),
      ih (fun p hp => h p (List.mem_cons_of_mem q hp))]

theorem getElem?_applyAnswerToBank (bank : List Question) (a : AnswerRecord)
    (i : Nat) (q : Question) (hq : bank[i]? = some q)
    (hne : q.id ≠ a.questionId) :
    (applyAnswerToBank bank a)[i]? = some q := by
  induction bank generalizing i with
  | nil => simp at hq
  | cons p rest ih =>
    unfold applyAnswerToBank
    by_cases hp : p.id = a.questionId
    · rw [if_pos hp]
      cases i with
      | zero =>
        rw [List.getElem?_cons_zero] at hq
        exact absurd (hp ▸ congrArg Question.id (Option.some.inj hq).symm) hne
      | succ n =>
        rw [List.getElem?_cons_succ] at hq ⊢
        exact hq
    · rw [if_neg hp]
      cases i with
      | zero =>
        rw [List.getElem?_cons_zero] at hq ⊢
        exact hq
      | succ n =>
        rw [List.getElem?_cons_succ] at hq ⊢
        exact ih n hq

theorem getElem?_updateQuestionStats (answers : List AnswerRecord)
    (bank : List Question) (i : Nat) (q : Question)
    (hq : bank[i]? = some q) (hna : ∀ b ∈ answers, b.questionId ≠ q.id) :
    (updateQuestionStats bank answers)[i]? = some q := by
  induction answers generalizing bank with
  | nil => exact hq
  | cons b rest ih =>
    show (updateQuestionStats (applyAnswerToBank bank b) rest)[i]? = some q
    exact ih (applyAnswerToBank bank b)
      (getElem?_applyAnswerToBank bank b i q hq
        (Ne.symm (hna b (List.mem_cons_self b rest))))
      (fun p hp => hna p (List.mem_cons_of_mem b hp))

/-- C10: the statistics update silently skips an answer record whose
question id matches no bank question (the bank is unchanged by that
record), and every question not referenced by any answer record keeps
exactly its previous record, statistics included. -/
theorem c10_stats_skip_and_frame (bank : List Question)
    (answers : List AnswerRecord) (a : AnswerRecord) :
    ((∀ q ∈ bank, q.id ≠ a.questionId) →
      applyAnswerToBank bank a = bank) ∧
    ((∀ q ∈ bank, q.id ≠ a.questionId) →
      updateQuestionStats bank (a :: answers) =
        updateQuestionStats bank answers) ∧
    (∀ (i : Nat) (q : Question), bank[i]? = some q →
      (∀ b ∈ answers, b.questionId ≠ q.id) →
      (updateQuestionStats bank answers)[i]? = some q) := by
  refine ⟨applyAnswerToBank_nomatch bank a, ?_, ?_⟩
  · intro h
    show updateQuestionStats (applyAnswerToBank bank a) answers =
      updateQuestionStats bank answers
    rw [applyAnswerToBank_nomatch bank a h]
  · intro i q hq hna
    exact getElem?_updateQuestionStats answers bank i q hq hna

/-- C10 witness: applying one unmatched answer record leaves the sample
bank entry at index 0 untouched. -/
theorem c10_stats_skip_and_frame_witness :
    ([qSingle, qMulti][0]? = some qSingle) ∧
    (∀ b ∈ [unknownAnswer], b.questionId ≠ qSingle.id) ∧
    (updateQuestionStats [qSingle, qMulti] [unknownAnswer])[0]? =
      some qSingle :=
  ⟨by decide, by decide,
    (c10_stats_skip_and_frame [qSingle, qMulti] [unknownAnswer]
      unknownAnswer).2.2 0 qSingle (by decide) (by decide)⟩

/-! ## C6: finalize guards and effects -/

/-- C6: finalize with an empty answer list, or with the confirm dialog
declined, changes nothing; otherwise it applies the statistics update
exactly once, pushes exactly one record onto the front of the history,
and moves the page to the report. -/
theorem c6_finalize_guards_and_effects (env : Externals) (s : ExamState) :
    (s.currentExamAnswers = [] → finishExam env s = s) ∧
    (env.confirmFinish = false → finishExam env s = s) ∧
    (s.currentExamAnswers ≠ [] → env.confirmFinish = true →
      finishExam env s =
        { s with
          questions := updateQuestionStats s.questions s.currentExamAnswers
          examHistory :=
            { examId := env.examId, startTime := env.startTime
              endTime := env.endTime, answers := s.currentExamAnswers
              score := currentExamScore s } :: s.examHistory
          currentPage := "report" }) := by
  refine ⟨?_, ?_, ?_⟩
  · intro h
    unfold finishExam
    rw [if_pos (by simp [h])]
  · intro h
    unfold finishExam
    by_cases h0 : s.currentExamAnswers.length = 0
    · rw [if_pos h0]
    · rw [if_neg h0, if_pos h]
  · intro h1 h2
    unfold finishExam
    rw [if_neg (by simpa [List.length_eq_zero] using h1),
      if_neg (by simp [h2])]

/-- C6 witness: finalizing the sample session holding one answer, with
confirmation granted, produces the expected state. -/
theorem c6_finalize_witness :
    sampleStateAnswered.currentExamAnswers ≠ [] ∧
    sampleEnv.confirmFinish = true ∧
    finishExam sampleEnv sampleStateAnswered =
      { sampleStateAnswered with
        questions := updateQuestionStats sampleStateAnswered.questions
          sampleStateAnswered.currentExamAnswers
        examHistory :=
          { examId := sampleEnv.examId, startTime := sampleEnv.startTime
            endTime := sampleEnv.endTime
            answers := sampleStateAnswered.currentExamAnswers
            score := currentExamScore sampleStateAnswered } ::
              sampleStateAnswered.examHistory
        currentPage := "report" } :=
  ⟨by decide, rfl,
    (c6_finalize_guards_and_effects sampleEnv sampleStateAnswered).2.2
      (by decide) rfl⟩

/-! ## C1: submitting with an empty or absent selection -/

theorem hasAnswer_set_feedback (s : ExamState) (f : Option Feedback) :
    hasAnswer { s with lastAnswerFeedback := f } = hasAnswer s := rfl

theorem hasAnswer_false_of_empty (s : ExamState)
    (hsel : ((currentQuestion s).map Question.qtype = some ("多选") ∧
             s.userAnswer = .arr []) ∨
            ((currentQuestion s).map Question.qtype ≠ some ("多选") ∧
             s.userAnswer = .str (""))) :
    hasAnswer s = false := by
  unfold hasAnswer
  rcases hsel with ⟨hm, hu⟩ | ⟨hm, hu⟩
  · rw [if_pos hm, hu]
    rfl
  · rw [if_neg hm, hu]
    rfl

/-- C1: a submit call whose selection is empty or absent (empty array
for multi-choice, empty string otherwise) appends no answer record,
leaves both counters unchanged, and clears any stale feedback payload
from a previous question. -/
theorem c1_submit_empty_selection_skips (env : Externals) (s : ExamState)
    (hpage : s.currentPage = "exam")
    (hsel : ((currentQuestion s).map Question.qtype = some ("多选") ∧
             s.userAnswer = .arr []) ∨
            ((currentQuestion s).map Question.qtype ≠ some ("多选") ∧
             s.userAnswer = .str (""))) :
    ∃ s2, submitAnswer env s = some s2 ∧
      s2.currentExamAnswers = s.currentExamAnswers ∧
      s2.currentExamCorrect = s.currentExamCorrect ∧
      s2.currentExamIncorrect = s.currentExamIncorrect ∧
      s2.lastAnswerFeedback = none := by
  have hfa : hasAnswer s = false := hasAnswer_false_of_empty s hsel
  unfold submitAnswer
  simp only [hfa, Bool.false_eq_true, if_false, hasAnswer_set_feedback]
  by_cases hidx :
      s.currentQuestionIndex < s.currentExamQuestions.length - 1
  · rw [if_pos hidx]
    have h := resetAnswer_frame
      { s with lastAnswerFeedback := none
               currentQuestionIndex := s.currentQuestionIndex + 1 }
    exact ⟨_, rfl, h.2.2.2.2.1, h.2.2.2.2.2.2.1, h.2.2.2.2.2.2.2.1,
      h.2.2.2.2.2.1⟩
  · rw [if_neg hidx]
    have h := finishExam_frame env { s with lastAnswerFeedback := none }
    exact ⟨_, rfl, h.2.2.2.1, h.2.2.2.2.2.1, h.2.2.2.2.2.2, h.2.2.2.2.1⟩

/-- C1 witness: the skip behavior on the sample session (single-choice
question, empty string selection, stale feedback present). -/
theorem c1_submit_empty_selection_skips_witness :
    sampleState.currentPage = "exam" ∧
    ∃ s2, submitAnswer sampleEnv sampleState = some s2 ∧
      s2.currentExamAnswers = sampleState.currentExamAnswers ∧
      s2.currentExamCorrect = sampleState.currentExamCorrect ∧
      s2.currentExamIncorrect = sampleState.currentExamIncorrect ∧
      s2.lastAnswerFeedback = none :=
  ⟨rfl, c1_submit_empty_selection_skips sampleEnv sampleState rfl
    (Or.inr ⟨by decide, rfl⟩)⟩

/-! ## C3: record count and record shape of the delimited parser -/

theorem parse_foldl_length (rows : List (List String))
    (acc : List Question) :
    (rows.foldl (fun qs fields =>
      if fields.length < 9 then qs
      else qs ++ [mkQuestionRecord fields]) acc).length =
      acc.length + rows.countP (fun r => decide (9 ≤ r.length)) := by
  induction rows generalizing acc with
  | nil => simp
  | cons r rest ih =>
    simp only [List.foldl_cons, List.countP_cons]
    by_cases h : r.length < 9
    · rw [if_pos h, ih]
      have hd : decide (9 ≤ r.length) = false := by
        simp only [decide_eq_false_iff_not]
        omega
      rw [hd]
      simp
    · rw [if_neg h, ih]
      have hd : decide (9 ≤ r.length) = true := by
        simp only [decide_eq_true_eq]
        omega
      rw [hd, if_pos rfl]
      simp only [List.length_append, List.length_cons, List.length_nil]
      omega

theorem mem_parse_foldl (rows : List (List String)) (acc : List Question)
    (q : Question)
    (hq : q ∈ rows.foldl (fun qs fields =>
      if fields.length < 9 then qs
      else qs ++ [mkQuestionRecord fields]) acc) :
    q ∈ acc ∨ ∃ fields, fields ∈ rows ∧ q = mkQuestionRecord fields := by
  induction rows generalizing acc with
  | nil => exact Or.inl hq
  | cons r rest ih =>
    simp only [List.foldl_cons] at hq
    rcases ih _ hq with h | ⟨f, hf, he⟩
    · by_cases hr : r.length < 9
      · rw [if_pos hr] at h
        exact Or.inl h
      · rw [if_neg hr] at h
        rcases List.mem_append.mp h with h1 | h2
        · exact Or.inl h1
        · exact Or.inr ⟨r, List.mem_cons_self r rest, by simpa using h2⟩
    · exact Or.inr ⟨f, List.mem_cons_of_mem r hf, he⟩

theorem mkQuestionRecord_judge (fields : List String)
    (h : (mkQuestionRecord fields).qtype = "判断") :
    (mkQuestionRecord fields).options = [('A', "对"), ('B', "错")] := by
  simp only [mkQuestionRecord] at h ⊢
  unfold buildOptions
  rw [if_pos h]

/-- C3 (amended): a data row (any row after the header) contributes one
record exactly when it resolves to at least 9 fields, so with every data
row meeting the minimum-field check the parser yields exactly N records
for N data rows.  Boolean-type records always carry the fixed non-empty
option pair; for other records the options mapping is not validated (it
may be empty) and correct-answer labels are not checked against it. -/
theorem c3_parse_count_and_shape (text : String) :
    (parseCSVText text).length =
      ((parseCSVRows text).drop 1).countP (fun r => decide (9 ≤ r.length)) ∧
    ((∀ r ∈ (parseCSVRows text).drop 1, 9 ≤ r.length) →
      (parseCSVText text).length = ((parseCSVRows text).drop 1).length) ∧
    (∀ q ∈ parseCSVText text, q.qtype = "判断" →
      q.options = [('A', "对"), ('B', "错")]) := by
  refine ⟨?_, ?_, ?_⟩
  · unfold parseCSVText
    rw [parse_foldl_length]
    simp
  · intro h
    unfold parseCSVText
    rw [parse_foldl_length]
    simp only [List.length_nil, Nat.zero_add]
    exact List.countP_eq_length.mpr
      (fun r hr => by simpa using h r hr)
  · intro q hq hj
    rcases mem_parse_foldl _ _ q hq with h | ⟨f, _, he⟩
    · simp at h
    · exact he ▸ mkQuestionRecord_judge f (he ▸ hj)

/-- C3 counterexample: a well-formed input with one 9-field data row
whose option cells are all empty parses into a record with an empty
options mapping whose answer label A exists in no option; the claimed
record invariant fails. -/
theorem c3_record_invariant_counterexample :
    (∀ r ∈ (parseCSVRows csvNoOptions).drop 1, 9 ≤ r.length) ∧
    parseCSVText csvNoOptions =
      [{ id := "1", qtype := "单选", question := "q", options := []
         answer := "A", statistics := ⟨0, 0, 0⟩ }] ∧
    ¬ (∀ q ∈ parseCSVText csvNoOptions, q.options ≠ [] ∧
        ∀ c ∈ q.answer.toList, c ∈ q.options.map Prod.fst) := by
  decide

/-- C3 witness: the exact-count consequence applied to the sample input
with one conforming data row. -/
theorem c3_parse_count_and_shape_witness :
    (∀ r ∈ (parseCSVRows csvNoOptions).drop 1, 9 ≤ r.length) ∧
    (parseCSVText csvNoOptions).length =
      ((parseCSVRows csvNoOptions).drop 1).length :=
  ⟨by decide, (c3_parse_count_and_shape csvNoOptions).2.1 (by decide)⟩

/-! ## C4: quoted-field tokenizing -/

/-- C4: inside a quoted field a doubled quote contributes one literal
quote character (first conjunct, over every scanner state), and a
newline inside a quoted field keeps the row together with the newline
embedded in the field value; in prompt and option text the embedded
newline is then collapsed to a single space, so the quoted field a,b
newline c yields the prompt text a,b space c. -/
theorem c4_quoted_field_handling :
    (∀ (rest : List Char) (field : String) (row : List String),
      scanLine ('"' :: '"' :: rest) field row true =
        scanLine rest (field.push '"') row true) ∧
    parseCSVRows ("\"a\"\"b\",x") = [["a\"b", "x"]] ∧
    parseCSVRows ("\"a,b\nc\",x") = [["a,b\nc", "x"]] ∧
    parseCSVText csvQuotedPrompt =
      [{ id := "1", qtype := "单选", question := "a,b c"
         options := [('A', "o")], answer := "A"
         statistics := ⟨0, 0, 0⟩ }] := by
  refine ⟨?_, by decide, by decide, by decide⟩
  intro rest field row
  rfl

/-! ## C5: statistics update at finalize -/

theorem find?_applyAnswerToBank_match (bank : List Question)
    (a : AnswerRecord) :
    (applyAnswerToBank bank a).find? (fun q => decide (q.id = a.questionId))
      = (bank.find? (fun q => decide (q.id = a.questionId))).map
          (fun q =>
            { q with statistics := updateStats a.isCorrect q.statistics }) := by
  induction bank with
  | nil => rfl
  | cons q rest ih =>
    unfold applyAnswerToBank
    by_cases hq : q.id = a.questionId
    · rw [if_pos hq]
      simp [List.find?_cons, hq]
    · rw [if_neg hq]
      simp [List.find?_cons, hq, ih]

theorem find?_applyAnswerToBank_ne (bank : List Question)
    (a : AnswerRecord) (id : String) (hne : id ≠ a.questionId) :
    (applyAnswerToBank bank a).find? (fun q => decide (q.id = id)) =
      bank.find? (fun q => decide (q.id = id)) := by
  induction bank with
  | nil => rfl
  | cons q rest ih =>
    unfold applyAnswerToBank
    by_cases hq : q.id = a.questionId
    · rw [if_pos hq]
      have hqid : ¬ q.id = id := fun h => hne (h.symm.trans hq)
      simp [List.find?_cons, hqid]
    · rw [if_neg hq]
      by_cases hid : q.id = id
      · simp [List.find?_cons, hid]
      · simp [List.find?_cons, hid, ih]

theorem findStats_applyAnswerToBank_match (bank : List Question)
    (a : AnswerRecord) :
    findStats (applyAnswerToBank bank a) a.questionId =
      (findStats bank a.questionId).map (updateStats a.isCorrect) := by
  unfold findStats
  rw [find?_applyAnswerToBank_match]
  rw [Option.map_map, Option.map_map]
  rfl

theorem findStats_applyAnswerToBank_ne (bank : List Question)
    (a : AnswerRecord) (id : String) (hne : id ≠ a.questionId) :
    findStats (applyAnswerToBank bank a) id = findStats bank id := by
  unfold findStats
  rw [find?_applyAnswerToBank_ne bank a id hne]

theorem findStats_updateQuestionStats (answers : List AnswerRecord)
    (bank : List Question) (id : String) :
    findStats (updateQuestionStats bank answers) id =
      (findStats bank id).map
        (fun st =>
          (answers.filter (fun a => decide (a.questionId = id))).foldl
            (fun st a => updateStats a.isCorrect st) st) := by
  induction answers generalizing bank with
  | nil =>
    show findStats bank id = _
    cases findStats bank id <;> simp
  | cons a rest ih =>
    show findStats (updateQuestionStats (applyAnswerToBank bank a) rest) id
      = _
    rw [ih]
    by_cases ha : a.questionId = id
    · subst ha
      rw [findStats_applyAnswerToBank_match, Option.map_map]
      cases findStats bank a.questionId <;>
        simp [List.filter_cons, Function.comp]
    · rw [findStats_applyAnswerToBank_ne bank a id (fun h => ha h.symm)]
      have : (List.filter (fun a => decide (a.questionId = id)) (a :: rest))
          = List.filter (fun a => decide (a.questionId = id)) rest := by
        simp [List.filter_cons, ha]
      rw [this]

theorem foldl_updateStats_totalAttempts (l : List AnswerRecord)
    (st : Statistics) :
    (l.foldl (fun st a => updateStats a.isCorrect st) st).totalAttempts =
      st.totalAttempts + l.length := by
  induction l generalizing st with
  | nil => simp
  | cons a rest ih =>
    rw [List.foldl_cons, ih]
    show (updateStats a.isCorrect st).totalAttempts + rest.length = _
    unfold updateStats
    simp only [List.length_cons]
    omega

theorem foldl_updateStats_correctAttempts (l : List AnswerRecord)
    (st : Statistics) :
    (l.foldl (fun st a => updateStats a.isCorrect st) st).correctAttempts =
      st.correctAttempts + l.countP (fun a => a.isCorrect) := by
  induction l generalizing st with
  | nil => simp
  | cons a rest ih =>
    rw [List.foldl_cons, ih, List.countP_cons]
    show (updateStats a.isCorrect st).correctAttempts + _ = _
    unfold updateStats
    cases ha : a.isCorrect <;> simp [ha] <;> omega

/-- C5: applying a finished session to the bank increments each
referenced question by one attempt per answer (a correct answer also
increments the correct count and the streak by one, an incorrect answer
resets the streak to exactly zero); across the whole update the attempt
and correct counters never decrease, the attempt count grows by exactly
the number of answers naming the question, the correct count by exactly
the number of correct ones, and the attempt total stays equal to the
correct count plus the accumulated incorrect count. -/
theorem c5_mastery_statistics_update :
    (∀ st : Statistics, updateStats true st =
      ⟨st.consecutiveCorrect + 1, st.totalAttempts + 1,
        st.correctAttempts + 1⟩) ∧
    (∀ st : Statistics, updateStats false st =
      ⟨0, st.totalAttempts + 1, st.correctAttempts⟩) ∧
    (∀ (bank : List Question) (answers : List AnswerRecord) (id : String)
      (st₀ : Statistics), findStats bank id = some st₀ →
      ∃ st₁, findStats (updateQuestionStats bank answers) id = some st₁ ∧
        st₁.totalAttempts = st₀.totalAttempts +
          answers.countP (fun a => decide (a.questionId = id)) ∧
        st₁.correctAttempts = st₀.correctAttempts +
          answers.countP (fun a => decide (a.questionId = id) && a.isCorrect) ∧
        st₀.totalAttempts ≤ st₁.totalAttempts ∧
        st₀.correctAttempts ≤ st₁.correctAttempts ∧
        (st₀.correctAttempts ≤ st₀.totalAttempts →
          st₁.totalAttempts = st₁.correctAttempts +
            ((st₀.totalAttempts - st₀.correctAttempts) +
              answers.countP
                (fun a => decide (a.questionId = id) && !a.isCorrect)))) := by
  refine ⟨fun st => rfl, fun st => rfl, ?_⟩
  intro bank answers id st₀ h0
  rw [findStats_updateQuestionStats, h0]
  refine ⟨_, rfl, ?_⟩
  rw [foldl_updateStats_totalAttempts, foldl_updateStats_correctAttempts]
  have htot : (answers.filter (fun a => decide (a.questionId = id))).length
      = answers.countP (fun a => decide (a.questionId = id)) :=
    (List.countP_eq_length_filter _ _).symm
  have hcor : (answers.filter
      (fun a => decide (a.questionId = id))).countP (fun a => a.isCorrect)
      = answers.countP (fun a => decide (a.questionId = id) && a.isCorrect) := by
    rw [List.countP_filter]
    exact List.countP_congr (fun a _ => by
      cases a.isCorrect <;> by_cases h : a.questionId = id <;> simp [h])
  have hsplit : (answers.filter
        (fun a => decide (a.questionId = id))).length
      = answers.countP (fun a => decide (a.questionId = id) && a.isCorrect)
        + answers.countP
            (fun a => decide (a.questionId = id) && !a.isCorrect) := by
    rw [List.length_eq_countP_add_countP (fun a => a.isCorrect),
      List.countP_filter, List.countP_filter]
    congr 1
    · exact List.countP_congr (fun a _ => by
        cases a.isCorrect <;> by_cases h : a.questionId = id <;> simp [h])
    · exact List.countP_congr (fun a _ => by
        cases a.isCorrect <;> by_cases h : a.questionId = id <;> simp [h])
  refine ⟨by rw [htot], by rw [hcor], by omega, by omega, ?_⟩
  intro hle
  omega

/-- C5 witness: one correct answer for the first sample question takes
its statistics from zero to one attempt, one correct, streak one. -/
theorem c5_mastery_statistics_update_witness :
    findStats [qSingle, qMulti] "1" = some ⟨0, 0, 0⟩ ∧
    ∃ st₁, findStats
        (updateQuestionStats [qSingle, qMulti] [correctAnswer1]) "1"
        = some st₁ ∧
      st₁.totalAttempts = (0 : Nat) +
        [correctAnswer1].countP (fun a => decide (a.questionId = "1")) ∧
      st₁.correctAttempts = (0 : Nat) +
        [correctAnswer1].countP
          (fun a => decide (a.questionId = "1") && a.isCorrect) ∧
      (0 : Nat) ≤ st₁.totalAttempts ∧
      (0 : Nat) ≤ st₁.correctAttempts ∧
      ((0 : Nat) ≤ (0 : Nat) →
        st₁.totalAttempts = st₁.correctAttempts +
          (((0 : Nat) - (0 : Nat)) +
            [correctAnswer1].countP
              (fun a => decide (a.questionId = "1") && !a.isCorrect))) :=
  ⟨by decide,
    c5_mastery_statistics_update.2.2 [qSingle, qMulti] [correctAnswer1]
      "1" ⟨0, 0, 0⟩ (by decide)⟩

/-! ## C7: order independence of multi-choice correctness -/

theorem jsStrLtB_asymm : ∀ x y : List Char,
    jsStrLtB x y = true → jsStrLtB y x = false := by
  intro x
  induction x with
  | nil =>
    intro y h
    cases y with
    | nil => simp [jsStrLtB] at h
    | cons b bs => rfl
  | cons a as ih =>
    intro y h
    cases y with
    | nil => simp [jsStrLtB] at h
    | cons b bs =>
      unfold jsStrLtB at h ⊢
      by_cases h1 : a < b
      · rw [if_neg (lt_asymm h1), if_pos h1]
      · rw [if_neg h1] at h
        by_cases h2 : b < a
        · rw [if_pos h2] at h
          exact absurd h (by simp)
        · rw [if_neg h2] at h
          rw [if_neg h2, if_neg h1]
          exact ih bs h

theorem jsStrLtB_eq_of_not : ∀ x y : List Char,
    jsStrLtB x y = false → jsStrLtB y x = false → x = y := by
  intro x
  induction x with
  | nil =>
    intro y h1 _
    cases y with
    | nil => rfl
    | cons b bs => simp [jsStrLtB] at h1
  | cons a as ih =>
    intro y h1 h2
    cases y with
    | nil => simp [jsStrLtB] at h2
    | cons b bs =>
      unfold jsStrLtB at h1 h2
      by_cases hab : a < b
      · rw [if_pos hab] at h1
        exact absurd h1 (by simp)
      · by_cases hba : b < a
        · rw [if_pos hba] at h2
          exact absurd h2 (by simp)
        · rw [if_neg hab, if_neg hba] at h1
          rw [if_neg hba, if_neg hab] at h2
          have he : a = b := le_antisymm (not_lt.mp hba) (not_lt.mp hab)
          rw [he, ih bs h1 h2]

theorem jsStrLtB_trans : ∀ x y z : List Char,
    jsStrLtB x y = true → jsStrLtB y z = true → jsStrLtB x z = true := by
  intro x
  induction x with
  | nil =>
    intro y z h1 h2
    cases y with
    | nil => simp [jsStrLtB] at h1
    | cons b bs =>
      cases z with
      | nil => simp [jsStrLtB] at h2
      | cons c cs => rfl
  | cons a as ih =>
    intro y z h1 h2
    cases y with
    | nil => simp [jsStrLtB] at h1
    | cons b bs =>
      cases z with
      | nil => simp [jsStrLtB] at h2
      | cons c cs =>
        unfold jsStrLtB at h1 h2 ⊢
        by_cases hab : a < b
        · by_cases hbc : b < c
          · rw [if_pos (lt_trans hab hbc)]
          · rw [if_neg hbc] at h2
            by_cases hcb : c < b
            · rw [if_pos hcb] at h2
              exact absurd h2 (by simp)
            · have he : b = c := le_antisymm (not_lt.mp hcb) (not_lt.mp hbc)
              rw [if_pos (he ▸ hab)]
        · rw [if_neg hab] at h1
          by_cases hba : b < a
          · rw [if_pos hba] at h1
            exact absurd h1 (by simp)
          · rw [if_neg hba] at h1
            have hea : a = b := le_antisymm (not_lt.mp hba) (not_lt.mp hab)
            by_cases hbc : b < c
            · rw [if_pos (hea ▸ hbc)]
            · rw [if_neg hbc] at h2
              by_cases hcb : c < b
              · rw [if_pos hcb] at h2
                exact absurd h2 (by simp)
              · rw [if_neg hcb] at h2
                have heb : b = c := le_antisymm (not_lt.mp hcb) (not_lt.mp hbc)
                have hac : ¬ a < c := heb ▸ hea ▸ lt_irrefl a
                have hca : ¬ c < a := heb ▸ hea ▸ lt_irrefl a
                rw [if_neg hac, if_neg hca]
                exact ih bs cs h1 h2

theorem jsStringLe_total (a b : String) : jsStringLe a b ∨ jsStringLe b a := by
  unfold jsStringLe
  cases hb : jsStrLtB b.toList a.toList
  · exact Or.inl rfl
  · exact Or.inr (jsStrLtB_asymm _ _ hb)

theorem jsStringLe_trans (a b c : String) :
    jsStringLe a b → jsStringLe b c → jsStringLe a c := by
  unfold jsStringLe
  intro h1 h2
  cases h3 : jsStrLtB c.toList a.toList
  · rfl
  · exfalso
    cases h4 : jsStrLtB b.toList c.toList
    · have hbc := jsStrLtB_eq_of_not _ _ h4 h2
      rw [← hbc] at h3
      rw [h3] at h1
      exact absurd h1 (by simp)
    · have h5 := jsStrLtB_trans _ _ _ h4 h3
      rw [h5] at h1
      exact absurd h1 (by simp)

theorem jsStringLe_antisymm (a b : String) :
    jsStringLe a b → jsStringLe b a → a = b := by
  unfold jsStringLe
  intro h1 h2
  exact String.toList_inj.mp (jsStrLtB_eq_of_not _ _ h2 h1)

theorem sortJoin_perm (l₁ l₂ : List String) (h : l₁.Perm l₂) :
    sortJoin l₁ = sortJoin l₂ := by
  unfold sortJoin
  congr 1
  haveI : IsTotal String jsStringLe := ⟨jsStringLe_total⟩
  haveI : IsTrans String jsStringLe := ⟨jsStringLe_trans⟩
  haveI : IsAntisymm String jsStringLe := ⟨jsStringLe_antisymm⟩
  exact List.eq_of_perm_of_sorted
    (((List.perm_insertionSort _ _).trans h).trans
      (List.perm_insertionSort _ _).symm)
    (List.sorted_insertionSort _ _) (List.sorted_insertionSort _ _)

theorem jsStringLe_singleton (a b : Char) :
    jsStringLe (Char.toString a) (Char.toString b) ↔ a ≤ b := by
  unfold jsStringLe
  show jsStrLtB [b] [a] = false ↔ a ≤ b
  have hv : jsStrLtB [b] [a] = decide (b < a) := by
    unfold jsStrLtB
    by_cases h : b < a
    · simp [h]
    · rw [if_neg h]
      by_cases h2 : a < b
      · simp [h, h2]
      · simp [h, h2, jsStrLtB]
  rw [hv, decide_eq_false_iff_not, not_lt]

theorem orderedInsert_map_toString (a : Char) (l : List Char) :
    List.orderedInsert jsStringLe (Char.toString a) (l.map Char.toString) =
      (List.orderedInsert (· ≤ ·) a l).map Char.toString := by
  induction l with
  | nil => rfl
  | cons b t ih =>
    simp only [List.map_cons, List.orderedInsert]
    by_cases h : a ≤ b
    · rw [if_pos ((jsStringLe_singleton a b).mpr h), if_pos h, List.map_cons]
      rfl
    · rw [if_neg (fun hc => h ((jsStringLe_singleton a b).mp hc)), if_neg h,
        List.map_cons, ih]

theorem insertionSort_map_toString (l : List Char) :
    List.insertionSort jsStringLe (l.map Char.toString) =
      (List.insertionSort (· ≤ ·) l).map Char.toString := by
  induction l with
  | nil => rfl
  | cons a t ih =>
    simp only [List.map_cons, List.insertionSort]
    rw [ih, orderedInsert_map_toString]

theorem foldl_append_toString_data (l : List Char) (s : String) :
    (List.foldl (fun r t => r ++ t) s (l.map Char.toString)).data =
      s.data ++ l := by
  induction l generalizing s with
  | nil => simp
  | cons c t ih =>
    simp only [List.map_cons, List.foldl_cons]
    rw [ih]
    show (s ++ Char.toString c).data ++ t = s.data ++ (c :: t)
    rw [String.data_append, List.append_assoc]
    rfl

theorem join_map_toString (l : List Char) :
    String.join (l.map Char.toString) = l.asString := by
  have h : (String.join (l.map Char.toString)).data = l := by
    show (List.foldl (fun r t => r ++ t) "" (l.map Char.toString)).data = l
    rw [foldl_append_toString_data]
    rfl
  exact String.toList_inj.mp (by simpa using h)

/-- C7: multi-choice correctness is order-independent: any two
permutations of the submitted labels evaluate identically (first
conjunct); for duplicate-free label submissions against a
duplicate-free spec, the evaluation is correct exactly when the two
label sets are equal (second conjunct); the submissions C,A and A,C
against the spec AC both evaluate correct (third conjunct). -/
theorem c7_multi_choice_order_independence :
    (∀ (l₁ l₂ : List String) (spec : String), l₁.Perm l₂ →
      checkAnswer (.arr l₁) spec ("多选") =
        checkAnswer (.arr l₂) spec ("多选")) ∧
    (∀ (cs : List Char) (spec : String), cs.Nodup → spec.toList.Nodup →
      (checkAnswer (.arr (cs.map Char.toString)) spec ("多选") = true ↔
        ∀ c : Char, c ∈ cs ↔ c ∈ spec.toList)) ∧
    (checkAnswer (.arr ["C", "A"]) "AC" "多选" = true ∧
     checkAnswer (.arr ["A", "C"]) "AC" "多选" = true) := by
  refine ⟨?_, ?_, by decide, by decide⟩
  · intro l₁ l₂ spec h
    show decide (sortJoin l₁ = sortChars spec) =
      decide (sortJoin l₂ = sortChars spec)
    rw [sortJoin_perm l₁ l₂ h]
  · intro cs spec h1 h2
    show decide (sortJoin (cs.map Char.toString) = sortChars spec) = true ↔ _
    rw [decide_eq_true_iff]
    have hl : sortJoin (cs.map Char.toString) =
        (List.insertionSort (· ≤ ·) cs).asString := by
      unfold sortJoin
      rw [insertionSort_map_toString, join_map_toString]
    rw [hl]
    show (List.insertionSort (· ≤ ·) cs).asString =
      (List.insertionSort (· ≤ ·) spec.toList).asString ↔ _
    rw [List.asString_inj]
    constructor
    · intro he c
      have p1 := (List.perm_insertionSort (· ≤ ·) cs).symm
      rw [he] at p1
      exact (p1.trans (List.perm_insertionSort _ spec.toList)).mem_iff
    · intro hmem
      have hp : cs.Perm spec.toList :=
        (List.perm_ext_iff_of_nodup h1 h2).mpr hmem
      exact List.eq_of_perm_of_sorted
        (((List.perm_insertionSort _ _).trans hp).trans
          (List.perm_insertionSort _ _).symm)
        (List.sorted_insertionSort _ _) (List.sorted_insertionSort _ _)

/-- C7 witness: the set characterization applied to the labels C,A
against the spec AC. -/
theorem c7_multi_choice_order_independence_witness :
    (['C', 'A'] : List Char).Nodup ∧ ("AC".toList.Nodup) ∧
    (checkAnswer (.arr (['C', 'A'].map Char.toString)) "AC" "多选" = true ↔
      ∀ c : Char, c ∈ (['C', 'A'] : List Char) ↔ c ∈ "AC".toList) :=
  ⟨by decide, by decide,
    c7_multi_choice_order_independence.2.1 ['C', 'A'] "AC"
      (by decide) (by decide)⟩

end AiClass
